import Mathlib

/-!
Verification of the crawler in fedmich/Advance-WebCrawler (crawler.py).

The file embeds the core of crawler.py shallowly:
  - Python string operations used by the crawler (replace, strip, the two
    re.sub calls) are modelled character-exactly on Lean strings;
  - BeautifulSoup queries are modelled over a flattened document, a list of
    tags in document order, each carrying its name, attributes and text;
  - network calls (requests.get) are inputs: a FetchOutcome value stands for
    what requests returned, and the pipeline maps it to an effect trace;
  - a raised, uncaught Python exception is an Except.error result;
  - the threaded orchestrator crawl_websites is a small-step transition
    system with explicit semaphore counting and nondeterministic worker
    completion.
-/

namespace Crawler

/-! Python string primitives -/

/-- Character class of Python str.strip default whitespace:
space, tab, newline, carriage return, vertical tab, form feed. -/
def isPySpace (c : Char) : Bool :=
  c = ' ' || c = '\t' || c = '\n' || c = '\r' || c.toNat = 11 || c.toNat = 12

/-- Python str.strip(): drop leading and trailing whitespace. -/
def pyStrip (s : String) : String :=
  ⟨((s.data.dropWhile isPySpace).reverse.dropWhile isPySpace).reverse⟩

/-- Left-to-right non-overlapping replacement, for a non-empty pattern.
Fuel bounds the number of scanning steps; each step consumes at least one
character, so fuel equal to the length of the scanned list is enough. -/
def pyReplaceAux (search repl : List Char) : Nat → List Char → List Char
  | 0, _ => []
  | _ + 1, [] => []
  | fuel + 1, c :: rest =>
    if search.isPrefixOf (c :: rest) then
      repl ++ pyReplaceAux search repl fuel ((c :: rest).drop search.length)
    else
      c :: pyReplaceAux search repl fuel rest

/-- Python str.replace(search, repl). An empty search pattern inserts the
replacement at every gap, including both ends, exactly as CPython does. -/
def pyReplace (s search repl : String) : String :=
  if search = "" then
    ⟨repl.data ++ s.data.flatMap (fun c => c :: repl.data)⟩
  else
    ⟨pyReplaceAux search.data repl.data s.data.length s.data⟩

/-- Scan for the first occurrence of close-script, returning the suffix just
after it; models the minimal extension of the non-greedy DOTALL pattern. -/
def dropThroughScriptClose : List Char → Option (List Char)
  | [] => none
  | c :: rest =>
    if ("</script>".data).isPrefixOf (c :: rest) then some ((c :: rest).drop 9)
    else dropThroughScriptClose rest

/-- One pass of re.sub with the script pattern (DOTALL, non-greedy): at a
position starting with open-script, the match extends to the first
close-script; otherwise the character is kept and scanning moves on. -/
def stripScriptsAux : Nat → List Char → List Char
  | 0, _ => []
  | _ + 1, [] => []
  | fuel + 1, c :: rest =>
    if ("<script".data).isPrefixOf (c :: rest) then
      match dropThroughScriptClose ((c :: rest).drop 7) with
      | some s' => stripScriptsAux fuel s'
      | none => c :: stripScriptsAux fuel rest
    else
      c :: stripScriptsAux fuel rest

/-- Models line 58 of crawler.py: re.sub of the script pattern with DOTALL. -/
def stripScripts (s : String) : String :=
  ⟨stripScriptsAux s.data.length s.data⟩

/-- Find the first close angle bracket before any newline, returning the
suffix after it; newline fails the match because the dot of the tag pattern
is compiled without DOTALL. -/
def findTagClose : List Char → Option (List Char)
  | [] => none
  | c :: rest =>
    if c = '>' then some rest
    else if c = '\n' then none
    else findTagClose rest

/-- Models line 59 of crawler.py: re.sub of the non-greedy angle-bracket
pattern. A match starts at an open angle bracket and ends at the first close
angle bracket with no newline in between; an unmatched open bracket stays. -/
def stripTagsAux : Nat → List Char → List Char
  | 0, _ => []
  | _ + 1, [] => []
  | fuel + 1, c :: rest =>
    if c = '<' then
      match findTagClose rest with
      | some s' => stripTagsAux fuel s'
      | none => c :: stripTagsAux fuel rest
    else
      c :: stripTagsAux fuel rest

def stripTags (s : String) : String :=
  ⟨stripTagsAux s.data.length s.data⟩

/-! clean_filename and apply_title_transform (crawler.py lines 22 to 30) -/

/-- The characters matched by the regex class of clean_filename.
Note the class is slash, colon, star, question mark, double quote, open and
close angle brackets, and pipe: the leading backslash in the source regex
escapes the slash, so the backslash character itself is not in the class. -/
def invalidFilenameChar (c : Char) : Bool :=
  c = '/' || c = ':' || c = '*' || c = '?' || c = '"' || c = '<' || c = '>' || c = '|'

/-- clean_filename: remove every character matched by the class. -/
def clean_filename (title : String) : String :=
  ⟨title.data.filter (fun c => !invalidFilenameChar c)⟩

/-- apply_title_transform: Python title.replace(title_search, title_replace). -/
def apply_title_transform (title title_search title_replace : String) : String :=
  pyReplace title title_search title_replace

/-! Document model: the result of BeautifulSoup parsing, flattened to the
tags in document order. Each tag carries its name, its attribute list and
the text that get_text() would return for it. -/

structure Tag where
  name : String
  attrs : List (String × String)
  txt : String
deriving DecidableEq, Repr

abbrev Doc := List Tag

/-- soup.find(nm): first tag with the given name. -/
def findTag (doc : Doc) (nm : String) : Option Tag :=
  doc.find? (fun t => t.name == nm)

/-- soup.find(nm, key=val): first tag with the given name whose attribute
key has value val. -/
def findTagAttr (doc : Doc) (nm attrKey attrVal : String) : Option Tag :=
  doc.find? (fun t => t.name == nm && t.attrs.lookup attrKey == some attrVal)

/-- Subscript access tag[k] returns the value when the attribute is present;
on a missing attribute the Python subscript raises KeyError, which callers
of this model surface as an Except.error. -/
def getAttr (t : Tag) (k : String) : Option String :=
  t.attrs.lookup k

/-! URL resolution -/

/-- Split a character list around the first occurrence of a pattern. -/
def splitAtSub (pat : List Char) : List Char → Option (List Char × List Char)
  | [] => none
  | c :: rest =>
    if pat.isPrefixOf (c :: rest) then some ([], (c :: rest).drop pat.length)
    else
      match splitAtSub pat rest with
      | some (pre, post) => some (c :: pre, post)
      | none => none

/-- Modelled from urllib.parse.urljoin, restricted to the URL shapes the
crawler exercises: an absolute http or https base with no query or fragment,
and a relative reference that is either itself absolute, scheme-relative,
root-relative, or a bare path with no dot segments. -/
def pyUrljoin (base rel : String) : String :=
  if rel = "" then base
  else
    match splitAtSub ("://".data) rel.data with
    | some _ => rel
    | none =>
      match splitAtSub ("://".data) base.data with
      | none => rel
      | some (scheme, hostpath) =>
        if rel.data.take 2 = ['/', '/'] then String.mk scheme ++ ":" ++ rel
        else
          let host := hostpath.takeWhile (fun c => c ≠ '/')
          let path := hostpath.dropWhile (fun c => c ≠ '/')
          if rel.data.take 1 = ['/'] then
            String.mk scheme ++ "://" ++ String.mk host ++ rel
          else
            let dir := (path.reverse.dropWhile (fun c => c ≠ '/')).reverse
            let dir' := if dir = [] then ['/'] else dir
            String.mk scheme ++ "://" ++ String.mk host ++ String.mk dir' ++ rel

/-! Fetch outcomes: what requests.get produced, supplied as an input to the
pipeline since the network is external. A requests.Response carries the
parsed document (via its content) and its effective URL response.url, the
URL after transport-level redirects. -/

inductive FetchOutcome where
  | timeout
  | reqError (msg : String)
  | resp (status : Nat) (doc : Doc) (effectiveUrl : String)
deriving DecidableEq, Repr

/-- Outcome of the image GET inside save_image. -/
inductive ImgOutcome where
  | status (code : Nat) (bytes : String)
  | reqError (msg : String)
deriving DecidableEq, Repr

/-! Extraction (crawler.py lines 32 to 75 and 240 to 249) -/

/-- extract_default_body_content: the meta description content if such a tag
exists (subscript raises KeyError when the content attribute is missing, and
an empty content falls through), else the text of the first paragraph tag if
one exists, else the sentinel. -/
def extract_default_body_content (doc : Doc) : Except String String :=
  match findTagAttr doc "meta" "name" "description" with
  | some t =>
    match getAttr t "content" with
    | some c =>
      if c = "" then
        Except.ok (match findTag doc "p" with
          | some p => p.txt
          | none => "No Body")
      else Except.ok c
    | none => Except.error "KeyError: content"
  | none =>
    Except.ok (match findTag doc "p" with
      | some p => p.txt
      | none => "No Body")

/-- Title extraction, line 43: the text of the first h1 tag, else the
sentinel. -/
def titleOf (doc : Doc) : String :=
  match findTag doc "h1" with
  | some h => h.txt
  | none => "No Title"

/-- Lines 41 to 51: the space-joined texts of the elements selected by the
configured rule; the empty string when the rule is empty (falsy) or selects
nothing. -/
def ruleTextOf (select : String → Doc → List Tag)
    (body_class_rule : String) (doc : Doc) : String :=
  if body_class_rule = "" then ""
  else
    match select body_class_rule doc with
    | [] => ""
    | es => String.intercalate " " (es.map Tag.txt)

/-- Lines 53 to 55: when the rule text is empty the default extraction
runs, which may raise. -/
def bodyRawOf (select : String → Doc → List Tag)
    (body_class_rule : String) (doc : Doc) : Except String String :=
  if ruleTextOf select body_class_rule doc = "" then
    extract_default_body_content doc
  else Except.ok (ruleTextOf select body_class_rule doc)

/-- Lines 63 to 65: the content attribute of the first og:image meta tag;
none if no such tag; the subscript raises when the tag lacks the
attribute. -/
def ogOf (doc : Doc) : Except String (Option String) :=
  match findTagAttr doc "meta" "property" "og:image" with
  | some t =>
    match getAttr t "content" with
    | some c => Except.ok (some c)
    | none => Except.error "KeyError: content"
  | none => Except.ok none

/-- get_page_content_with_rule (lines 32 to 75). The select argument models
soup.select for the configured CSS rule; the hostname argument is accepted
and, as in the source, never used. Returns ok none for the three caught
failure shapes (timeout, request exception, non-200 status), ok some triple
on a 200 response, and error when an uncaught KeyError escapes; the body
KeyError (line 243) fires before the og:image one (line 65), matching
evaluation order. -/
def get_page_content_with_rule (select : String → Doc → List Tag)
    (fetch : FetchOutcome) (url hostname body_class_rule : String) :
    Except String (Option (String × String × Option String)) :=
  match fetch with
  | FetchOutcome.timeout => Except.ok none
  | FetchOutcome.reqError _ => Except.ok none
  | FetchOutcome.resp status doc _ =>
    if status = 200 then
      match bodyRawOf select body_class_rule doc with
      | Except.error e => Except.error e
      | Except.ok bodyRaw =>
        match ogOf doc with
        | Except.error e => Except.error e
        | Except.ok og =>
          Except.ok (some (titleOf doc, pyStrip (stripTags (stripScripts bodyRaw)), og))
    else Except.ok none

/-! Effects: the externally visible actions of one pipeline run. A writeFile
is an open-write-close in the data directory; appendFail is the single line
appended to fails.txt; appendSuccess is the row appended to successes.csv. -/

inductive Effect where
  | fetchPage (url : String)
  | imageFetch (url : String)
  | writeFile (filename content : String)
  | appendFail (line : String)
  | appendSuccess (url : String)
deriving DecidableEq, Repr

/-- save_image (crawler.py lines 77 to 97). The existence check on the
target png is an input; when it reports a non-empty file the function
returns before any network call. Otherwise the GET is attempted; on a 200 it
writes the png and the image-URL sidecar, on any other status or a raised
request exception it writes nothing. -/
def save_image (imageExistsNonEmpty : Bool) (imgFetch : ImgOutcome)
    (image_url filename : String) : List Effect :=
  if imageExistsNonEmpty then []
  else
    Effect.imageFetch image_url ::
      match imgFetch with
      | ImgOutcome.status code bytes =>
        if code = 200 then
          [Effect.writeFile (filename ++ ".png") bytes,
           Effect.writeFile (filename ++ "-image.txt") image_url]
        else []
      | ImgOutcome.reqError _ => []

/-- save_url (crawler.py lines 99 to 102). -/
def save_url (url filename : String) : List Effect :=
  [Effect.writeFile (filename ++ "-url.txt") url]

/-- log_failed_url appends the single line url plus newline to fails.txt. -/
def log_failed_url (url : String) : List Effect :=
  [Effect.appendFail (url ++ "\n")]

/-- log_successful_crawl appends one row for the url to successes.csv. -/
def log_successful_crawl (url : String) : List Effect :=
  [Effect.appendSuccess url]

/-- crawl_page_with_rule (crawler.py lines 164 to 197), as the effect trace
of one worker. Note line 165 passes title_search in the hostname position of
get_page_content_with_rule, exactly as the source does, and line 185 tests
the og value for Python truthiness, so an absent or empty og:image url both
skip the image step. The one page GET is the leading fetchPage effect. An
Except.error result is the uncaught KeyError escaping the worker thread. -/
def crawl_page_with_rule (select : String → Doc → List Tag)
    (fetch : FetchOutcome) (imageExistsNonEmpty : Bool) (imgFetch : ImgOutcome)
    (url log_directory title_search title_replace body_class_rule : String) :
    Except String (List Effect) :=
  match get_page_content_with_rule select fetch url title_search body_class_rule with
  | Except.error e => Except.error e
  | Except.ok none => Except.ok (Effect.fetchPage url :: log_failed_url url)
  | Except.ok (some (title0, body, og)) =>
    if title0 = "" ∨ body = "" then
      Except.ok (Effect.fetchPage url :: log_failed_url url)
    else
      let title := pyStrip (apply_title_transform title0 title_search title_replace)
      let filename := clean_filename title
      let imgEffects :=
        match og with
        | some ogUrl =>
          if ogUrl = "" then []
          else save_image imageExistsNonEmpty imgFetch (pyUrljoin url ogUrl) filename
        | none => []
      Except.ok (Effect.fetchPage url ::
        Effect.writeFile (filename ++ ".txt") (title ++ "\n---\n" ++ body ++ "\n") ::
        (save_url url filename ++ imgEffects ++ log_successful_crawl url))

/-- The effect list of a worker that returned normally; a crashed worker
(uncaught exception) contributes no further effects. -/
def effectsOf : Except String (List Effect) → List Effect
  | Except.ok l => l
  | Except.error _ => []

/-! Auxiliary predicates and lemmas about the pipeline -/

/-- The caught fetch failure shapes: timeout, a raised request exception,
or a non-200 HTTP status. -/
def fetchFailed : FetchOutcome → Bool
  | FetchOutcome.timeout => true
  | FetchOutcome.reqError _ => true
  | FetchOutcome.resp status _ _ => status != 200

/-- The image GET did not come back with a 200 status. -/
def imgFailed : ImgOutcome → Bool
  | ImgOutcome.status code _ => code != 200
  | ImgOutcome.reqError _ => true

def isImageFetch : Effect → Bool
  | Effect.imageFetch _ => true
  | _ => false

/-- The first og:image meta tag found, if any, carries a content
attribute, so line 65 cannot raise. -/
def ogContentOk (doc : Doc) : Bool :=
  match findTagAttr doc "meta" "property" "og:image" with
  | some t => (getAttr t "content").isSome
  | none => true

/-- The first description meta tag found, if any, carries a content
attribute, so line 243 cannot raise. -/
def descContentOk (doc : Doc) : Bool :=
  match findTagAttr doc "meta" "name" "description" with
  | some t => (getAttr t "content").isSome
  | none => true

/-! Orchestrator: crawl_websites (crawler.py lines 199 to 237) as a
small-step transition system. The dispatcher is sequential: per url it
acquires the semaphore, starts the worker thread, sleeps the per-host
delay, then releases the semaphore; once the url list is exhausted it joins
every started thread and returns. Worker threads progress independently and
may finish at any moment, which is the only nondeterminism. -/

inductive Phase where
  | beforeAcquire
  | afterAcquire
  | afterLaunch
  | afterSleep
  | joining
  | done
deriving DecidableEq, Repr

/-- Orchestrator state: urls not yet dispatched, current semaphore value,
started-but-unfinished workers, finished workers, dispatcher position. -/
structure OState where
  pending : List String
  sem : Nat
  running : List String
  finished : List String
  phase : Phase
deriving DecidableEq, Repr

/-- State at entry of the dispatch loop: the semaphore counts max_threads. -/
def initState (urls : List String) (max_threads : Nat) : OState :=
  ⟨urls, max_threads, [], [], Phase.beforeAcquire⟩

/-- One step of the orchestrator or of a worker. semaphore.acquire blocks
until the count is positive, so the acquire step requires a successor
count; workerFinish removes any running worker, in any phase. -/
inductive OStep : OState → OState → Prop where
  | acquire (u : String) (rest : List String) (n : Nat) (r f : List String) :
      OStep ⟨u :: rest, n + 1, r, f, Phase.beforeAcquire⟩
            ⟨u :: rest, n, r, f, Phase.afterAcquire⟩
  | launch (u : String) (rest : List String) (n : Nat) (r f : List String) :
      OStep ⟨u :: rest, n, r, f, Phase.afterAcquire⟩
            ⟨rest, n, u :: r, f, Phase.afterLaunch⟩
  | sleepDelay (p : List String) (n : Nat) (r f : List String) :
      OStep ⟨p, n, r, f, Phase.afterLaunch⟩ ⟨p, n, r, f, Phase.afterSleep⟩
  | release (p : List String) (n : Nat) (r f : List String) :
      OStep ⟨p, n, r, f, Phase.afterSleep⟩ ⟨p, n + 1, r, f, Phase.beforeAcquire⟩
  | exhaust (n : Nat) (r f : List String) :
      OStep ⟨[], n, r, f, Phase.beforeAcquire⟩ ⟨[], n, r, f, Phase.joining⟩
  | workerFinish (p : List String) (n : Nat) (r1 r2 f : List String)
      (w : String) (ph : Phase) :
      OStep ⟨p, n, r1 ++ w :: r2, f, ph⟩ ⟨p, n, r1 ++ r2, w :: f, ph⟩
  | joinAll (n : Nat) (f : List String) :
      OStep ⟨[], n, [], f, Phase.joining⟩ ⟨[], n, [], f, Phase.done⟩

/-- Reflexive-transitive closure of OStep. -/
inductive OReach (s : OState) : OState → Prop where
  | refl : OReach s s
  | tail {t u : OState} : OReach s t → OStep t u → OReach s u

/-- Semaphore units held by the dispatcher in each phase: one between its
acquire and its release, zero elsewhere. -/
def gateHeld : Phase → Nat
  | Phase.afterAcquire => 1
  | Phase.afterLaunch => 1
  | Phase.afterSleep => 1
  | _ => 0

/-- Invariant: once the dispatcher is joining, no url is pending; once it
is done, no worker is still running either. -/
def JoinInv (s : OState) : Prop :=
  (s.phase = Phase.joining → s.pending = []) ∧
    (s.phase = Phase.done → s.pending = [] ∧ s.running = [])

/-- A parsed page with a heading, a paragraph and a root-relative og:image
reference. -/
def docOg : Doc :=
  [⟨"h1", [], "Title A"⟩, ⟨"p", [], "Body A"⟩,
   ⟨"meta", [("property", "og:image"), ("content", "/img.png")], ""⟩]

/-- A parsed page holding only a description meta tag. -/
def docDesc : Doc :=
  [⟨"meta", [("name", "description"), ("content", "A fine description")], ""⟩]

/-- The scheduling contract of crawl_websites: (1) the only semaphore
release is the dispatcher stepping out of its post-launch sleep back to the
top of the loop; (2) a worker finishing never changes the semaphore or the
dispatcher position; (3) the dispatcher never holds more than one unit, so
the gate is free again before the next url is dispatched; (4) the running
workers can outnumber the bound whenever more urls than the bound exist;
(5) done is reached only with nothing pending, nothing running, and every
url finished. -/
def GatePolicy (urls : List String) (m : Nat) : Prop :=
  (∀ s t, OStep s t → s.sem < t.sem →
      s.phase = Phase.afterSleep ∧ t.phase = Phase.beforeAcquire) ∧
  (∀ s t, OStep s t → s.finished.length < t.finished.length →
      t.sem = s.sem ∧ t.phase = s.phase) ∧
  (∀ s, OReach (initState urls m) s → m ≤ s.sem + 1) ∧
  (m < urls.length → ∃ s, OReach (initState urls m) s ∧ m < s.running.length) ∧
  (∀ s, OReach (initState urls m) s → s.phase = Phase.done →
      s.pending = [] ∧ s.running = [] ∧ s.finished.length = urls.length)

/-! Lemmas about the pipeline and the orchestrator -/

theorem extract_default_isOk (doc : Doc) (h : descContentOk doc = true) :
    (extract_default_body_content doc).isOk = true := by
  unfold extract_default_body_content
  split
  next t hf =>
    split
    next c hc => split <;> rfl
    next hc =>
      unfold descContentOk at h
      rw [hf] at h
      simp only at h
      rw [hc] at h
      simp at h
  next hf => rfl

theorem ogOf_isOk (doc : Doc) (h : ogContentOk doc = true) :
    (ogOf doc).isOk = true := by
  unfold ogOf
  split
  next t hf =>
    split
    next c hc => rfl
    next hc =>
      unfold ogContentOk at h
      rw [hf] at h
      simp only at h
      rw [hc] at h
      simp at h
  next hf => rfl

/-- A string with no open angle bracket is untouched by the script strip. -/
theorem stripScriptsAux_no_open (fuel : Nat) (l : List Char)
    (hfuel : l.length ≤ fuel) (h : '<' ∉ l) : stripScriptsAux fuel l = l := by
  induction fuel generalizing l with
  | zero =>
    cases l with
    | nil => rfl
    | cons c rest => simp at hfuel
  | succ k ih =>
    cases l with
    | nil => rfl
    | cons c rest =>
      simp only [List.mem_cons, not_or] at h
      obtain ⟨hc, hrest⟩ := h
      simp only [List.length_cons, Nat.add_le_add_iff_right] at hfuel
      have hpre : (("<script".data).isPrefixOf (c :: rest)) = false := by
        rw [show ("<script".data) = '<' :: "script".data from rfl]
        simp [List.isPrefixOf]
        intro hlt
        exact absurd hlt hc
      simp only [stripScriptsAux, hpre, Bool.false_eq_true, if_false]
      rw [ih rest hfuel hrest]

/-- A string with no open angle bracket is untouched by the tag strip. -/
theorem stripTagsAux_no_open (fuel : Nat) (l : List Char)
    (hfuel : l.length ≤ fuel) (h : '<' ∉ l) : stripTagsAux fuel l = l := by
  induction fuel generalizing l with
  | zero =>
    cases l with
    | nil => rfl
    | cons c rest => simp at hfuel
  | succ k ih =>
    cases l with
    | nil => rfl
    | cons c rest =>
      simp only [List.mem_cons, not_or] at h
      obtain ⟨hc, hrest⟩ := h
      simp only [List.length_cons, Nat.add_le_add_iff_right] at hfuel
      have hcc : ¬(c = '<') := fun hx => hc (hx ▸ rfl)
      simp only [stripTagsAux, hcc, if_false]
      rw [ih rest hfuel hrest]

theorem stripScripts_no_open (s : String) (h : '<' ∉ s.data) :
    stripScripts s = s := by
  cases s with
  | mk l =>
    simp only [stripScripts]
    rw [stripScriptsAux_no_open l.length l (Nat.le_refl _) h]

theorem stripTags_no_open (s : String) (h : '<' ∉ s.data) :
    stripTags s = s := by
  cases s with
  | mk l =>
    simp only [stripTags]
    rw [stripTagsAux_no_open l.length l (Nat.le_refl _) h]

theorem OReach.trans {a b c : OState} (hab : OReach a b) (hbc : OReach b c) :
    OReach a c := by
  induction hbc with
  | refl => exact hab
  | tail _ hstep ih => exact OReach.tail ih hstep

theorem OReach.single {s t : OState} (h : OStep s t) : OReach s t :=
  OReach.tail OReach.refl h

theorem gateHeld_le_one (ph : Phase) : gateHeld ph ≤ 1 := by
  cases ph <;> simp [gateHeld]

/-- The semaphore count plus the dispatcher-held units is constant: the
dispatcher always gives its unit back before the next acquire, and worker
completion never touches the semaphore. -/
theorem sem_invariant {m : Nat} {urls : List String} {s : OState}
    (h : OReach (initState urls m) s) : s.sem + gateHeld s.phase = m := by
  induction h with
  | refl => simp [initState, gateHeld]
  | tail _ hstep ih => cases hstep <;> simp [gateHeld] at ih ⊢ <;> omega

/-- Every url is in exactly one of pending, running, finished. -/
theorem count_invariant {m : Nat} {urls : List String} {s : OState}
    (h : OReach (initState urls m) s) :
    s.pending.length + s.running.length + s.finished.length = urls.length := by
  induction h with
  | refl => simp [initState]
  | tail _ hstep ih => cases hstep <;> simp at ih ⊢ <;> omega

theorem joinInv_step {s t : OState} (hstep : OStep s t) (hs : JoinInv s) :
    JoinInv t := by
  cases hstep with
  | acquire u rest n r f => simp [JoinInv]
  | launch u rest n r f => simp [JoinInv]
  | sleepDelay p n r f => simp [JoinInv]
  | release p n r f => simp [JoinInv]
  | exhaust n r f => simp [JoinInv]
  | joinAll n f => simp [JoinInv]
  | workerFinish p n r1 r2 f w ph =>
    obtain ⟨h1, h2⟩ := hs
    simp [JoinInv] at h1 h2 ⊢
    refine ⟨fun hph => h1 hph, fun hph => ?_⟩
    have h3 := h2 hph
    simp at h3

theorem join_invariant {m : Nat} {urls : List String} {s : OState}
    (h : OReach (initState urls m) s) : JoinInv s := by
  induction h with
  | refl => simp [JoinInv, initState]
  | tail _ hstep ih => exact joinInv_step hstep ih

/-- From the top of the dispatch loop with a positive semaphore, the
dispatcher can run the whole remaining url list without ever blocking,
while no worker finishes: every pending url becomes a running worker. -/
theorem reach_dispatch_all (p : List String) (n : Nat) (r f : List String)
    (hn : 0 < n) :
    OReach ⟨p, n, r, f, Phase.beforeAcquire⟩
      ⟨[], n, p.reverse ++ r, f, Phase.beforeAcquire⟩ := by
  induction p generalizing r with
  | nil => exact OReach.refl
  | cons u rest ih =>
    obtain ⟨k, rfl⟩ : ∃ k, n = k + 1 := ⟨n - 1, by omega⟩
    have s1 := OReach.single (OStep.acquire u rest k r f)
    have s2 := OReach.tail s1 (OStep.launch u rest k r f)
    have s3 := OReach.tail s2 (OStep.sleepDelay rest k (u :: r) f)
    have h1 := OReach.tail s3 (OStep.release rest k (u :: r) f)
    have h2 := ih (u :: r)
    have heq : rest.reverse ++ (u :: r) = (u :: rest).reverse ++ r := by simp
    rw [heq] at h2
    exact OReach.trans h1 h2

/-- save_image never appends to fails.txt. -/
theorem appendFail_not_mem_save_image (e : Bool) (i : ImgOutcome)
    (iu fn l : String) : Effect.appendFail l ∉ save_image e i iu fn := by
  cases e with
  | true => simp [save_image]
  | false =>
    cases i with
    | status code bytes => by_cases h : code = 200 <;> simp [save_image, h]
    | reqError m => simp [save_image]

/-- save_image never appends to successes.csv. -/
theorem appendSuccess_not_mem_save_image (e : Bool) (i : ImgOutcome)
    (iu fn u : String) : Effect.appendSuccess u ∉ save_image e i iu fn := by
  cases e with
  | true => simp [save_image]
  | false =>
    cases i with
    | status code bytes => by_cases h : code = 200 <;> simp [save_image, h]
    | reqError m => simp [save_image]

/-! The claims -/

/-- C2: in every execution of the dispatch loop the concurrency-gate unit
is released by the dispatcher right after the post-launch per-host sleep
and before the next url is dispatched, never by a completing worker, so
the number of simultaneously running workers can exceed maxConcurrency;
and after the input is exhausted the orchestrator reaches its return point
only once every launched worker has finished. -/
theorem C2_gate_release_policy (urls : List String) (m : Nat) (hm : 1 ≤ m) :
    GatePolicy urls m := by
  refine ⟨?_, ?_, ?_, ?_, ?_⟩
  · intro s t hst hsem
    cases hst <;> first
      | exact ⟨rfl, rfl⟩
      | (dsimp only at hsem; omega)
  · intro s t hst hfin
    cases hst <;> first
      | exact ⟨rfl, rfl⟩
      | (dsimp only at hfin; omega)
  · intro s hs
    have h1 := sem_invariant hs
    have h2 := gateHeld_le_one s.phase
    omega
  · intro hlen
    refine ⟨⟨[], m, urls.reverse ++ [], [], Phase.beforeAcquire⟩, ?_, ?_⟩
    · exact reach_dispatch_all urls m [] [] (by omega)
    · simpa using hlen
  · intro s hs hdone
    have hj := (join_invariant hs).2 hdone
    have hc := count_invariant hs
    refine ⟨hj.1, hj.2, ?_⟩
    rw [hj.1, hj.2] at hc
    simpa using hc

theorem C2_gate_release_policy_witness :
    1 ≤ 2 ∧ GatePolicy ["a", "b", "c"] 2 :=
  ⟨by decide, C2_gate_release_policy ["a", "b", "c"] 2 (by decide)⟩

/-- C3: the claim (and the source comment about Windows-invalid characters)
says the backslash is removed by filename sanitization, but the character
class of the regex escapes the slash, not the backslash, so a backslash
survives; the eight characters actually in the class are removed, as in the
Hello/World round trip. -/
theorem C3_backslash_survives :
    clean_filename "a\\b" = "a\\b" ∧ ("a\\b" : String) ≠ "ab" ∧
      clean_filename "Hello/World" = "HelloWorld" := by decide

/-- C10: the extraction result does not depend on the hostname argument,
which the source never reads; in particular line 165 passing title_search
in the hostname position cannot change the extracted content. -/
theorem C10_hostname_irrelevant (select : String → Doc → List Tag)
    (fetch : FetchOutcome) (url rule hostA hostB : String) :
    get_page_content_with_rule select fetch url hostA rule =
      get_page_content_with_rule select fetch url hostB rule := rfl

/-- C5: on any caught fetch failure (timeout, request exception, non-200
status) the worker trace is exactly one page request followed by one line,
the url plus a newline, appended to fails.txt: no artifact file is written,
no retry and no image request happens, and the worker returns normally, so
the dispatch loop and the other in-flight workers are unaffected. -/
theorem C5_fetch_failure_logged_only (select : String → Doc → List Tag)
    (imageExistsNonEmpty : Bool) (imgFetch : ImgOutcome)
    (url log_directory title_search title_replace body_class_rule : String)
    (fetch : FetchOutcome) (h : fetchFailed fetch = true) :
    crawl_page_with_rule select fetch imageExistsNonEmpty imgFetch url
        log_directory title_search title_replace body_class_rule =
      Except.ok [Effect.fetchPage url, Effect.appendFail (url ++ "\n")] := by
  cases fetch with
  | timeout => rfl
  | reqError m => rfl
  | resp status doc eff =>
    have hs : ¬(status = 200) := by simpa [fetchFailed] using h
    simp [crawl_page_with_rule, get_page_content_with_rule, hs, log_failed_url]

theorem C5_fetch_failure_logged_only_witness :
    crawl_page_with_rule (fun _ _ => []) FetchOutcome.timeout false
        (ImgOutcome.status 200 "B") "http://x.example/a" "ld" "" "" "" =
      Except.ok [Effect.fetchPage "http://x.example/a",
        Effect.appendFail ("http://x.example/a" ++ "\n")] :=
  C5_fetch_failure_logged_only (fun _ _ => []) false (ImgOutcome.status 200 "B")
    "http://x.example/a" "ld" "" "" "" FetchOutcome.timeout (by decide)

/-- C8 counterexample: with no pre-existing file and a download coming back
404, the image is neither saved nor is the image-url sidecar written, while
the claim requires the download branch to save the image and persist the
sidecar. -/
theorem C8_failed_download_writes_nothing :
    save_image false (ImgOutcome.status 404 "") "http://a.example/i.png" "f" =
      [Effect.imageFetch "http://a.example/i.png"] := by rfl

/-- C8 as amended: with a non-empty image file already present save_image
performs no network call and writes nothing; otherwise exactly one image
GET is attempted, and only a 200 response saves the png and writes the
sidecar holding the resolved image url, any other outcome writing
nothing. -/
theorem C8_image_persistence_policy (imgFetch : ImgOutcome)
    (image_url filename : String) :
    save_image true imgFetch image_url filename = [] ∧
    (save_image false imgFetch image_url filename).countP isImageFetch = 1 ∧
    (∀ bytes, imgFetch = ImgOutcome.status 200 bytes →
      save_image false imgFetch image_url filename =
        [Effect.imageFetch image_url,
         Effect.writeFile (filename ++ ".png") bytes,
         Effect.writeFile (filename ++ "-image.txt") image_url]) ∧
    (imgFailed imgFetch = true →
      save_image false imgFetch image_url filename =
        [Effect.imageFetch image_url]) := by
  refine ⟨rfl, ?_, ?_, ?_⟩
  · cases imgFetch with
    | status code bytes =>
      by_cases h200 : code = 200
      · subst h200
        simp [save_image, isImageFetch]
      · simp [save_image, h200, isImageFetch]
    | reqError m => simp [save_image, isImageFetch]
  · intro bytes hb
    subst hb
    simp [save_image]
  · intro hf
    cases imgFetch with
    | status code bytes =>
      have hne : ¬(code = 200) := by simpa [imgFailed] using hf
      simp [save_image, hne]
    | reqError m => simp [save_image]

theorem C8_image_persistence_policy_witness :
    save_image false (ImgOutcome.status 200 "BYTES") "http://a.example/i.png" "f" =
      [Effect.imageFetch "http://a.example/i.png",
       Effect.writeFile ("f" ++ ".png") "BYTES",
       Effect.writeFile ("f" ++ "-image.txt") "http://a.example/i.png"] :=
  (C8_image_persistence_policy (ImgOutcome.status 200 "BYTES")
      "http://a.example/i.png" "f").2.2.1 "BYTES" rfl

/-- C4 counterexample: a 200 page whose og:image meta tag lacks a content
attribute makes extraction raise an uncaught KeyError instead of returning
a triple, refuting that extraction never raises. -/
theorem C4_extraction_raises_on_bare_og_meta :
    get_page_content_with_rule (fun _ _ => [])
        (FetchOutcome.resp 200 [⟨"meta", [("property", "og:image")], ""⟩] "e")
        "u" "h" "" =
      Except.error "KeyError: content" := by rfl

/-- C4 as amended: extraction returns a (possibly degenerate) triple for
every fetch outcome whose page, when it has a first og:image meta tag or a
first description meta tag, gives those tags a content attribute; the
caught fetch failures also return normally. The excluded pages are the real
exception: there the attribute subscript raises KeyError. -/
theorem C4_extraction_total_given_meta_content (select : String → Doc → List Tag)
    (url hostname body_class_rule : String) (fetch : FetchOutcome)
    (h : ∀ status doc eff, fetch = FetchOutcome.resp status doc eff →
      ogContentOk doc = true ∧ descContentOk doc = true) :
    (get_page_content_with_rule select fetch url hostname body_class_rule).isOk
      = true := by
  cases fetch with
  | timeout => rfl
  | reqError m => rfl
  | resp status doc eff =>
    obtain ⟨hog, hdesc⟩ := h status doc eff rfl
    unfold get_page_content_with_rule
    dsimp only
    by_cases hs : status = 200
    · rw [if_pos hs]
      have hbr : (bodyRawOf select body_class_rule doc).isOk = true := by
        unfold bodyRawOf
        split
        · exact extract_default_isOk doc hdesc
        · rfl
      cases hbrv : bodyRawOf select body_class_rule doc with
      | error e => rw [hbrv] at hbr; simp [Except.isOk, Except.toBool] at hbr
      | ok bodyRaw =>
        cases hov : ogOf doc with
        | error e =>
          have ho := ogOf_isOk doc hog
          rw [hov] at ho
          simp [Except.isOk, Except.toBool] at ho
        | ok og =>
          simp only [hbrv, hov]
          rfl
    · rw [if_neg hs]
      rfl

theorem C4_extraction_total_given_meta_content_witness :
    (get_page_content_with_rule (fun _ _ => [])
        (FetchOutcome.resp 200 [⟨"h1", [], "T"⟩] "e") "u" "h" "").isOk = true :=
  C4_extraction_total_given_meta_content (fun _ _ => []) "u" "h" ""
    (FetchOutcome.resp 200 [⟨"h1", [], "T"⟩] "e")
    (by intro status doc eff heq; cases heq; exact ⟨rfl, rfl⟩)

/-- C1 counterexample: a 200 response with no heading, no description meta
and no paragraph extracts the sentinel pair No Title, No Body; both being
non-empty strings, the worker writes the artifact No Title.txt plus the
url sidecar and logs success, while the claim requires a logged failure
with no artifact for a sentinel-only extraction. -/
theorem C1_sentinel_extraction_is_success :
    get_page_content_with_rule (fun _ _ => []) (FetchOutcome.resp 200 [] "e")
        "http://x.example/a" "" "" =
      Except.ok (some ("No Title", "No Body", none)) ∧
    crawl_page_with_rule (fun _ _ => []) (FetchOutcome.resp 200 [] "e") false
        (ImgOutcome.status 200 "B") "http://x.example/a" "ld" "" "" "" =
      Except.ok [Effect.fetchPage "http://x.example/a",
        Effect.writeFile "No Title.txt" "No Title\n---\nNo Body\n",
        Effect.writeFile "No Title-url.txt" "http://x.example/a",
        Effect.appendSuccess "http://x.example/a"] := ⟨rfl, rfl⟩

/-- C1 as amended: the worker classifies a url by Python truthiness alone.
It appends to fails.txt exactly when the fetch failed (extraction returned
nothing) or the extracted title or body is the empty string, and it logs
success, writing the artifact, exactly when both are non-empty, sentinel
values included. -/
theorem C1_success_is_truthiness (select : String → Doc → List Tag)
    (fetch : FetchOutcome) (imageExistsNonEmpty : Bool) (imgFetch : ImgOutcome)
    (url log_directory title_search title_replace body_class_rule : String)
    (r : Option (String × String × Option String))
    (h : get_page_content_with_rule select fetch url title_search body_class_rule =
      Except.ok r) :
    (Effect.appendFail (url ++ "\n") ∈ effectsOf (crawl_page_with_rule select fetch
        imageExistsNonEmpty imgFetch url log_directory title_search title_replace
        body_class_rule) ↔
      r = none ∨ ∃ t b og, r = some (t, b, og) ∧ (t = "" ∨ b = "")) ∧
    (Effect.appendSuccess url ∈ effectsOf (crawl_page_with_rule select fetch
        imageExistsNonEmpty imgFetch url log_directory title_search title_replace
        body_class_rule) ↔
      ∃ t b og, r = some (t, b, og) ∧ t ≠ "" ∧ b ≠ "") := by
  unfold crawl_page_with_rule
  rw [h]
  cases r with
  | none => simp [log_failed_url, effectsOf]
  | some trip =>
    obtain ⟨t, b, og⟩ := trip
    dsimp only
    by_cases hfail : t = "" ∨ b = ""
    · rw [if_pos hfail]
      constructor
      · constructor
        · intro _
          exact Or.inr ⟨t, b, og, rfl, hfail⟩
        · intro _
          simp [log_failed_url, effectsOf]
      · constructor
        · intro hmem
          simp [log_failed_url, effectsOf] at hmem
        · rintro ⟨t', b', og', heq, ht', hb'⟩
          simp only [Option.some.injEq, Prod.mk.injEq] at heq
          obtain ⟨h1, h2, h3⟩ := heq
          subst h1
          subst h2
          rcases hfail with h4 | h4
          · exact absurd h4 ht'
          · exact absurd h4 hb'
    · rw [if_neg hfail]
      rw [not_or] at hfail
      obtain ⟨ht, hb⟩ := hfail
      constructor
      · constructor
        · intro hmem
          cases og with
          | none => simp [save_url, log_successful_crawl, effectsOf] at hmem
          | some ogUrl =>
            simp [save_url, log_successful_crawl, effectsOf,
              appendFail_not_mem_save_image] at hmem
        · rintro (h1 | ⟨t', b', og', heq, hfl⟩)
          · simp at h1
          · simp only [Option.some.injEq, Prod.mk.injEq] at heq
            obtain ⟨h1, h2, h3⟩ := heq
            subst h1
            subst h2
            rcases hfl with h4 | h4
            · exact absurd h4 ht
            · exact absurd h4 hb
      · constructor
        · intro _
          exact ⟨t, b, og, rfl, ht, hb⟩
        · intro _
          cases og with
          | none => simp [save_url, log_successful_crawl, effectsOf]
          | some ogUrl => simp [save_url, log_successful_crawl, effectsOf]

theorem C1_success_is_truthiness_witness :
    Effect.appendSuccess "http://x.example/a" ∈ effectsOf (crawl_page_with_rule
      (fun _ _ => []) (FetchOutcome.resp 200 [] "e") false
      (ImgOutcome.status 200 "B") "http://x.example/a" "ld" "" "" "") :=
  ((C1_success_is_truthiness (fun _ _ => []) (FetchOutcome.resp 200 [] "e") false
      (ImgOutcome.status 200 "B") "http://x.example/a" "ld" "" "" ""
      (some ("No Title", "No Body", none)) rfl).2).mpr
    ⟨"No Title", "No Body", none, rfl, by decide, by decide⟩

/-- C6 counterexample: with no selector rule, no description meta tag and a
first paragraph whose text is empty, the extracted body is the empty
string, not the first non-empty entry of the chain, which would be the
sentinel No Body. -/
theorem C6_empty_paragraph_beats_sentinel :
    get_page_content_with_rule (fun _ _ => [])
        (FetchOutcome.resp 200 [⟨"p", [], ""⟩] "e") "u" "h" "" =
      Except.ok (some ("No Title", "", none)) ∧ ("" : String) ≠ "No Body" :=
  ⟨rfl, by decide⟩

/-- C6 as amended: with no selector rule the body comes from the
description meta content when that tag exists with non-empty content (the
claimed equality with the trimmed content value additionally needs the
content to carry no angle-bracket span, since the markup-stripping passes
of lines 58 to 61 run on it); when the content is empty the chain moves to
the first paragraph text even if that text is empty, and the sentinel
appears only with no paragraph at all. -/
theorem C6_description_meta_body (select : String → Doc → List Tag)
    (url hostname eff : String) (doc : Doc) (t : Tag) (c : String)
    (hfind : findTagAttr doc "meta" "name" "description" = some t)
    (hc : getAttr t "content" = some c) (hne : c ≠ "")
    (hclean : '<' ∉ c.data) (hog : ogContentOk doc = true) :
    ∃ og, get_page_content_with_rule select (FetchOutcome.resp 200 doc eff)
        url hostname "" = Except.ok (some (titleOf doc, pyStrip c, og)) := by
  have hrt : ruleTextOf select "" doc = "" := by
    unfold ruleTextOf
    rw [if_pos rfl]
  have hbr : bodyRawOf select "" doc = Except.ok c := by
    unfold bodyRawOf
    rw [hrt]
    rw [if_pos rfl]
    unfold extract_default_body_content
    rw [hfind]
    dsimp only
    rw [hc]
    dsimp only
    rw [if_neg hne]
  have hstrip : pyStrip (stripTags (stripScripts c)) = pyStrip c := by
    rw [stripScripts_no_open c hclean, stripTags_no_open c hclean]
  unfold get_page_content_with_rule
  dsimp only
  rw [if_pos rfl]
  rw [hbr]
  dsimp only
  cases hov : ogOf doc with
  | error e =>
    have ho := ogOf_isOk doc hog
    rw [hov] at ho
    simp [Except.isOk, Except.toBool] at ho
  | ok og => exact ⟨og, by rw [hstrip]⟩

theorem C6_description_meta_body_witness :
    ∃ og, get_page_content_with_rule (fun _ _ => [])
        (FetchOutcome.resp 200 docDesc "e") "u" "h" "" =
      Except.ok (some (titleOf docDesc, pyStrip "A fine description", og)) :=
  C6_description_meta_body (fun _ _ => []) "u" "h" "e" docDesc
    ⟨"meta", [("name", "description"), ("content", "A fine description")], ""⟩
    "A fine description" rfl rfl (by decide) (by decide) rfl

/-- C7 counterexample: the page is requested at a.example but its effective
response url is at b.example; the worker resolves the og:image reference
against the request url and fetches the a.example image, not the b.example
one the claim requires. -/
theorem C7_image_resolved_against_request_url :
    Effect.imageFetch "http://a.example/img.png" ∈ effectsOf
      (crawl_page_with_rule (fun _ _ => [])
        (FetchOutcome.resp 200 docOg "http://b.example/page") false
        (ImgOutcome.status 200 "B") "http://a.example/page" "ld" "" "" "") ∧
    Effect.imageFetch "http://b.example/img.png" ∉ effectsOf
      (crawl_page_with_rule (fun _ _ => [])
        (FetchOutcome.resp 200 docOg "http://b.example/page") false
        (ImgOutcome.status 200 "B") "http://a.example/page" "ld" "" "" "") ∧
    pyUrljoin "http://b.example/page" "/img.png" = "http://b.example/img.png" := by
  refine ⟨?_, ?_, ?_⟩ <;> decide

/-- C7 as amended: a non-empty og:image reference is resolved against the
original request url; the effective response url plays no role, since
extraction never reads it; and no image request happens when the tag is
absent or when its content is the empty string, which line 185 treats as
falsy. -/
theorem C7_image_base_is_request_url (select : String → Doc → List Tag)
    (imageExistsNonEmpty : Bool) (imgFetch : ImgOutcome)
    (url log_directory title_search title_replace body_class_rule : String)
    (status : Nat) (doc : Doc) (e1 e2 : String) :
    crawl_page_with_rule select (FetchOutcome.resp status doc e1)
        imageExistsNonEmpty imgFetch url log_directory title_search
        title_replace body_class_rule =
      crawl_page_with_rule select (FetchOutcome.resp status doc e2)
        imageExistsNonEmpty imgFetch url log_directory title_search
        title_replace body_class_rule ∧
    (∀ t b c, get_page_content_with_rule select (FetchOutcome.resp status doc e1)
        url title_search body_class_rule = Except.ok (some (t, b, some c)) →
      t ≠ "" → b ≠ "" → c ≠ "" → imageExistsNonEmpty = false →
      Effect.imageFetch (pyUrljoin url c) ∈ effectsOf (crawl_page_with_rule select
        (FetchOutcome.resp status doc e1) imageExistsNonEmpty imgFetch url
        log_directory title_search title_replace body_class_rule)) ∧
    (∀ t b, get_page_content_with_rule select (FetchOutcome.resp status doc e1)
        url title_search body_class_rule = Except.ok (some (t, b, none)) →
      ∀ iu, Effect.imageFetch iu ∉ effectsOf (crawl_page_with_rule select
        (FetchOutcome.resp status doc e1) imageExistsNonEmpty imgFetch url
        log_directory title_search title_replace body_class_rule)) ∧
    (∀ t b, get_page_content_with_rule select (FetchOutcome.resp status doc e1)
        url title_search body_class_rule = Except.ok (some (t, b, some "")) →
      ∀ iu, Effect.imageFetch iu ∉ effectsOf (crawl_page_with_rule select
        (FetchOutcome.resp status doc e1) imageExistsNonEmpty imgFetch url
        log_directory title_search title_replace body_class_rule)) := by
  refine ⟨rfl, ?_, ?_, ?_⟩
  · intro t b c hx ht hb hc he
    unfold crawl_page_with_rule
    rw [hx]
    dsimp only
    rw [if_neg (not_or.mpr ⟨ht, hb⟩)]
    subst he
    simp [save_url, log_successful_crawl, effectsOf, save_image, hc]
  · intro t b hx iu
    unfold crawl_page_with_rule
    rw [hx]
    dsimp only
    by_cases hfail : t = "" ∨ b = ""
    · rw [if_pos hfail]
      simp [log_failed_url, effectsOf]
    · rw [if_neg hfail]
      simp [save_url, log_successful_crawl, effectsOf]
  · intro t b hx iu
    unfold crawl_page_with_rule
    rw [hx]
    dsimp only
    by_cases hfail : t = "" ∨ b = ""
    · rw [if_pos hfail]
      simp [log_failed_url, effectsOf]
    · rw [if_neg hfail]
      simp [save_url, log_successful_crawl, effectsOf]

theorem C7_image_base_is_request_url_witness :
    Effect.imageFetch (pyUrljoin "http://a.example/page" "/img.png") ∈ effectsOf
      (crawl_page_with_rule (fun _ _ => []) (FetchOutcome.resp 200 docOg "eff")
        false (ImgOutcome.status 200 "B") "http://a.example/page" "ld" "" "" "") :=
  (C7_image_base_is_request_url (fun _ _ => []) false (ImgOutcome.status 200 "B")
      "http://a.example/page" "ld" "" "" "" 200 docOg "eff" "other").2.1
    "Title A" "Body A" "/img.png" rfl (by decide) (by decide) (by decide) rfl

/-- C9: on every successful crawl the first artifact written is the text
file keyed by the sanitized transformed trimmed title, containing exactly
the title, a separator line, and the body, each newline-terminated, and it
is immediately followed by the always-written url sidecar holding the
original crawled url under the same filename key. -/
theorem C9_artifact_format_and_url_sidecar (select : String → Doc → List Tag)
    (fetch : FetchOutcome) (imageExistsNonEmpty : Bool) (imgFetch : ImgOutcome)
    (url log_directory title_search title_replace body_class_rule : String)
    (t b : String) (og : Option String)
    (h : get_page_content_with_rule select fetch url title_search body_class_rule =
      Except.ok (some (t, b, og)))
    (ht : t ≠ "") (hb : b ≠ "") :
    ∃ rest, effectsOf (crawl_page_with_rule select fetch imageExistsNonEmpty
        imgFetch url log_directory title_search title_replace body_class_rule) =
      Effect.fetchPage url ::
        Effect.writeFile
          (clean_filename (pyStrip (apply_title_transform t title_search
            title_replace)) ++ ".txt")
          (pyStrip (apply_title_transform t title_search title_replace)
            ++ "\n---\n" ++ b ++ "\n") ::
        Effect.writeFile
          (clean_filename (pyStrip (apply_title_transform t title_search
            title_replace)) ++ "-url.txt") url :: rest := by
  unfold crawl_page_with_rule
  rw [h]
  dsimp only
  rw [if_neg (not_or.mpr ⟨ht, hb⟩)]
  exact ⟨_, rfl⟩

theorem C9_artifact_format_and_url_sidecar_witness :
    ∃ rest, effectsOf (crawl_page_with_rule (fun _ _ => [])
        (FetchOutcome.resp 200 docOg "eff") false (ImgOutcome.status 200 "B")
        "http://a.example/page" "ld" "" "" "") =
      Effect.fetchPage "http://a.example/page" ::
        Effect.writeFile
          (clean_filename (pyStrip (apply_title_transform "Title A" "" "")) ++ ".txt")
          (pyStrip (apply_title_transform "Title A" "" "")
            ++ "\n---\n" ++ "Body A" ++ "\n") ::
        Effect.writeFile
          (clean_filename (pyStrip (apply_title_transform "Title A" "" ""))
            ++ "-url.txt") "http://a.example/page" :: rest :=
  C9_artifact_format_and_url_sidecar (fun _ _ => [])
    (FetchOutcome.resp 200 docOg "eff") false (ImgOutcome.status 200 "B")
    "http://a.example/page" "ld" "" "" "" "Title A" "Body A" (some "/img.png")
    rfl (by decide) (by decide)

end Crawler
